import Mathlib

/-!
# Verification of the ldtk code-generation core

Shallow embedding of `src/codegen/index.ts` (the Assembler / Symbol
Rewriter / Entry-Point Binder pipeline) and of the tree utilities
(`dump`, `createNodeFinder`/`findNodes`) shipped alongside it.

Conventions of the embedding:
* JS strings are Lean `String`s; `chalk` color wrappers are modelled as
  the identity on strings (chalk disables ANSI codes on non-TTY sinks,
  and the spec treats color as pure presentation).
* `console.log` output is modelled by returning the list of printed
  lines in order.
* JS object identity (used by the `Set<ASTLike>` deduplication in
  `findNodes`) is modelled by an explicit `id : Nat` field on nodes.
* Mutation (`ts-morph` in-place edits, `result.add`) is modelled by
  explicit state threading.
-/

namespace Ldtk

/-! ## The ASTLike tree model (`RuleAST` / `OptionsAST` of the source)

The source declares
```
type RuleAST    = { type, children: ASTLike[], ctx }
type OptionsAST = { type, family: 'options', option: RuleAST, children: [RuleAST], ctx }
type ASTLike    = RuleAST | OptionsAST
```
The `options` constructor below carries the literal-typed
`family: 'options'` tag implicitly; its `option` and single-element
`children` fields are given the supertype `ASTLike` (every `RuleAST`
is an `ASTLike`, so every source-typed tree is a model tree).
The `id` field models JS object identity. -/

/-- Model of an antlr4ts `Token`: only the fields the code reads. -/
structure Tok where
  startIndex : Nat
  stopIndex : Nat
deriving DecidableEq, Repr

/-- Model of `AntlrCtx`: `{ _start: Token; _stop: Token | undefined }`. -/
structure AntlrCtx where
  start : Tok
  stop : Option Tok
deriving DecidableEq, Repr

/-- The heterogeneous tree consumed by `dump` and `findNodes`. -/
inductive ASTLike where
  | rule (id : Nat) (type : String) (children : List ASTLike) (ctx : AntlrCtx)
  | options (id : Nat) (type : String) (option : ASTLike) (child : ASTLike) (ctx : AntlrCtx)

namespace ASTLike

/-- JS object identity surrogate. -/
def id : ASTLike → Nat
  | .rule i _ _ _ => i
  | .options i _ _ _ _ => i

/-- The node's own `type` field. -/
def type : ASTLike → String
  | .rule _ t _ _ => t
  | .options _ t _ _ _ => t

/-- The node's own `children` field.  For an `OptionsAST` the source
type is `children: [RuleAST]`, a one-element array. -/
def children : ASTLike → List ASTLike
  | .rule _ _ cs _ => cs
  | .options _ _ _ c _ => [c]

/-- The node's own `ctx` field. -/
def ctx : ASTLike → AntlrCtx
  | .rule _ _ _ c => c
  | .options _ _ _ _ c => c

/-- The `option` field of an `OptionsAST`; a `RuleAST` has none,
so the node itself is returned there (the code only reads `option`
after checking `'family' in ast && ast.family === 'options'`). -/
def option : ASTLike → ASTLike
  | .rule i t cs c => .rule i t cs c
  | .options _ _ opt _ _ => opt

/-- The check `'family' in ast && ast.family === 'options'`. -/
def isOptions : ASTLike → Bool
  | .rule _ _ _ _ => false
  | .options _ _ _ _ _ => true

@[simp] theorem id_rule (i : Nat) (t : String) (cs : List ASTLike) (c : AntlrCtx) :
    (ASTLike.rule i t cs c).id = i := rfl

@[simp] theorem id_options (i : Nat) (t : String) (opt ch : ASTLike) (c : AntlrCtx) :
    (ASTLike.options i t opt ch c).id = i := rfl

@[simp] theorem type_rule (i : Nat) (t : String) (cs : List ASTLike) (c : AntlrCtx) :
    (ASTLike.rule i t cs c).type = t := rfl

@[simp] theorem type_options (i : Nat) (t : String) (opt ch : ASTLike) (c : AntlrCtx) :
    (ASTLike.options i t opt ch c).type = t := rfl

@[simp] theorem children_rule (i : Nat) (t : String) (cs : List ASTLike) (c : AntlrCtx) :
    (ASTLike.rule i t cs c).children = cs := rfl

@[simp] theorem children_options (i : Nat) (t : String) (opt ch : ASTLike) (c : AntlrCtx) :
    (ASTLike.options i t opt ch c).children = [ch] := rfl

@[simp] theorem ctx_rule (i : Nat) (t : String) (cs : List ASTLike) (c : AntlrCtx) :
    (ASTLike.rule i t cs c).ctx = c := rfl

@[simp] theorem ctx_options (i : Nat) (t : String) (opt ch : ASTLike) (c : AntlrCtx) :
    (ASTLike.options i t opt ch c).ctx = c := rfl

@[simp] theorem option_options (i : Nat) (t : String) (opt ch : ASTLike) (c : AntlrCtx) :
    (ASTLike.options i t opt ch c).option = opt := rfl

@[simp] theorem isOptions_rule (i : Nat) (t : String) (cs : List ASTLike) (c : AntlrCtx) :
    (ASTLike.rule i t cs c).isOptions = false := rfl

@[simp] theorem isOptions_options (i : Nat) (t : String) (opt ch : ASTLike) (c : AntlrCtx) :
    (ASTLike.options i t opt ch c).isOptions = true := rfl

end ASTLike

/-! ## `getCodeRange` and the dump helpers -/

/-- JS `String.prototype.substring` on character indices: clamps both
arguments to the string length and swaps them when out of order. -/
def jsSubstring (s : String) (start stop : Nat) : String :=
  let len := s.length
  let a := min start len
  let b := min stop len
  ⟨(s.data.drop (min a b)).take (max a b - min a b)⟩

/-- Source `getCodeRange(src, start, stop) = src.substring(start.startIndex, stop.stopIndex + 1)`. -/
def getCodeRange (src : String) (start stop : Tok) : String :=
  jsSubstring src start.startIndex (stop.stopIndex + 1)

/-- The regex replace `.replace(/\r?\n/g, '\\n')` over the character list: each `"\r\n"`
or `"\n"` becomes the two characters `\` `n`; a lone `"\r"` is kept. -/
def escapeNLChars : List Char → List Char
  | [] => []
  | '\r' :: '\n' :: rest => '\\' :: 'n' :: escapeNLChars rest
  | '\n' :: rest => '\\' :: 'n' :: escapeNLChars rest
  | c :: rest => c :: escapeNLChars rest

/-- The regex replace `.replace(/\r?\n/g, '\\n')` on strings. -/
def escapeNL (s : String) : String :=
  ⟨escapeNLChars s.data⟩

/-- Indentation `'  '.repeat(level)`. -/
def indentOf (level : Nat) : String :=
  String.join (List.replicate level "  ")

/-! ## `dump` (the Structured Dumper)

`dump_inner` builds one line per visited node: indentation, then the
discriminant (`ast.option.type` for the options family, `ast.type`
otherwise), then — when `ast.ctx._stop` is defined — `': '` plus the
escaped code range of the node's *own* ctx.  Descent goes through
`ast.option.children` for the options family and `ast.children`
otherwise.  `console.log` is modelled by the returned line list; the
`async` wrapper contains no `await` before the log, so the source
executes these calls synchronously in exactly this order. -/

mutual

/-- Source `dump_inner(src, ast, level)`.  The line is the indentation, the
discriminant (`ast.option.type` when `isOptions`, else `ast.type`),
and — when `ast.ctx._stop` is defined — `': '` plus the escaped code
range of the node's own `ctx`.  Descent then iterates
`ast.option.children` (when `isOptions`) or `ast.children`; for an
options-shaped `option` that one-element array `[oc]` is iterated
directly as the single call on `oc`. -/
def dump_inner (src : String) : ASTLike → Nat → List String
  | .rule _ t cs ctx, level =>
    let line := indentOf level ++ t
    let line := match ctx.stop with
      | some stop => line ++ ": " ++ escapeNL (getCodeRange src ctx.start stop)
      | none => line
    line :: dumpList src cs (level + 1)
  | .options _ _ (.rule oid ot ocs octx) _ ctx, level =>
    let line := indentOf level ++ ot
    let line := match ctx.stop with
      | some stop => line ++ ": " ++ escapeNL (getCodeRange src ctx.start stop)
      | none => line
    line :: dumpList src ocs (level + 1)
  | .options _ _ (.options _ ot _ oc _) _ ctx, level =>
    let line := indentOf level ++ ot
    let line := match ctx.stop with
      | some stop => line ++ ": " ++ escapeNL (getCodeRange src ctx.start stop)
      | none => line
    line :: dump_inner src oc (level + 1)
termination_by ast _ => sizeOf ast
decreasing_by all_goals (simp_wf; try omega)

/-- The loop `children.forEach(child => dump_inner(src, child, level + 1))`. -/
def dumpList (src : String) : List ASTLike → Nat → List String
  | [], _ => []
  | c :: cs, level => dump_inner src c level ++ dumpList src cs level
termination_by l _ => sizeOf l
decreasing_by all_goals (simp_wf; try omega)

end

/-- Source `dump(src, ast) = dump_inner(src, ast, 0)`. -/
def dump (src : String) (ast : ASTLike) : List String :=
  dump_inner src ast 0

/-! ## `findNodes` (Generic Tree Search)

```
function findNodes(type, node, result = new Set()) {
  if (node.type === type) result.add(node);
  for (const child of node.children) findNodes(type, child, result);
  return [...result];
}
```
The `Set` is modelled as an insertion-ordered list deduplicated by
node identity (`id`); `Set.prototype.add` is `addNode`. -/

/-- The set insertion `result.add(node)`: appends unless a node with the same identity
is already present (JS sets deduplicate by object reference). -/
def addNode (result : List ASTLike) (n : ASTLike) : List ASTLike :=
  if result.any (fun m => m.id = n.id) then result else result ++ [n]

mutual

/-- Source `findNodes(type, node, result)`; the returned list is the spread
`[...result]` of the threaded set. -/
def findNodes (ty : String) (node : ASTLike) (result : List ASTLike) : List ASTLike :=
  let result := if node.type = ty then addNode result node else result
  match node with
  | .rule _ _ cs _ => findNodesList ty cs result
  | .options _ _ _ c _ => findNodes ty c result
termination_by sizeOf node
decreasing_by all_goals (simp_wf; try omega)

/-- The loop `for (const child of node.children) findNodes(type, child, result)`.
For an `OptionsAST`, `node.children` is the one-element array holding
the grouped child, so the loop is the single recursive call above. -/
def findNodesList (ty : String) (l : List ASTLike) (result : List ASTLike) : List ASTLike :=
  match l with
  | [] => result
  | c :: cs => findNodesList ty cs (findNodes ty c result)
termination_by sizeOf l
decreasing_by all_goals (simp_wf; try omega)

end

/-! ## Specification-side characterizations of the traversals

These definitions follow the spec's words (depth-first pre-order
through a node's own `children`, identity-based first-occurrence
deduplication, one rendered line per visited node) and are compared
with the source-derived `findNodes` / `dump_inner` above. -/

mutual

/-- Depth-first pre-order enumeration of a tree through each node's
own `children` field (the order `findNodes` visits nodes in). -/
def dfsPre : ASTLike → List ASTLike
  | .rule i t cs ctx => .rule i t cs ctx :: dfsPreList cs
  | .options i t opt c ctx => .options i t opt c ctx :: dfsPre c
termination_by ast => sizeOf ast
decreasing_by all_goals (simp_wf; try omega)

/-- Pre-order enumeration of a forest. -/
def dfsPreList : List ASTLike → List ASTLike
  | [] => []
  | c :: cs => dfsPre c ++ dfsPreList cs
termination_by l => sizeOf l
decreasing_by all_goals (simp_wf; try omega)

end

/-- First-occurrence deduplication by node identity, keeping order. -/
def dedupById (l : List ASTLike) : List ASTLike :=
  l.foldl addNode []

/-- The line the Structured Dumper is specified to print for one node:
two spaces of indentation per depth level, the discriminant (from
`option` for the grouped family), and — when the node's span end
exists — a colon and the escaped source range of the node's span. -/
def renderLine (src : String) (n : ASTLike) (lvl : Nat) : String :=
  match n.ctx.stop with
  | some stop =>
    indentOf lvl ++ (if n.isOptions then n.option.type else n.type) ++ ": " ++
      escapeNL (getCodeRange src n.ctx.start stop)
  | none => indentOf lvl ++ (if n.isOptions then n.option.type else n.type)

mutual

/-- The `(node, depth)` sequence the Structured Dumper visits:
pre-order, descending through `option.children` for the grouped
family and through `children` otherwise. -/
def visitSeq : ASTLike → Nat → List (ASTLike × Nat)
  | .rule i t cs ctx, lvl => (ASTLike.rule i t cs ctx, lvl) :: visitSeqList cs (lvl + 1)
  | .options i t (.rule oi ot ocs octx) c ctx, lvl =>
    (ASTLike.options i t (.rule oi ot ocs octx) c ctx, lvl) :: visitSeqList ocs (lvl + 1)
  | .options i t (.options oi ot oopt oc octx) c ctx, lvl =>
    (ASTLike.options i t (.options oi ot oopt oc octx) c ctx, lvl) :: visitSeq oc (lvl + 1)
termination_by ast _ => sizeOf ast
decreasing_by all_goals (simp_wf; try omega)

/-- Visit sequence of a forest at one depth. -/
def visitSeqList : List ASTLike → Nat → List (ASTLike × Nat)
  | [], _ => []
  | c :: cs, lvl => visitSeq c lvl ++ visitSeqList cs lvl
termination_by l _ => sizeOf l
decreasing_by all_goals (simp_wf; try omega)

end

/-! ## Bridge lemmas: traversal code vs. spec characterizations -/

mutual

/-- Bridge: `findNodes` folds `Set.add` over the type-matching nodes of the
depth-first pre-order enumeration, starting from the incoming set. -/
theorem findNodes_eq_foldl (ty : String) (node : ASTLike) (acc : List ASTLike) :
    findNodes ty node acc =
      ((dfsPre node).filter (fun n => n.type = ty)).foldl addNode acc := by
  cases node with
  | rule i t cs ctx =>
    by_cases h : t = ty <;>
      simp [findNodes, dfsPre, List.filter_cons, h, findNodesList_eq_foldl ty cs]
  | options i t opt c ctx =>
    by_cases h : t = ty <;>
      simp [findNodes, dfsPre, List.filter_cons, h, findNodes_eq_foldl ty c]
termination_by sizeOf node
decreasing_by all_goals (simp_wf; try omega)

/-- List version of `findNodes_eq_foldl`. -/
theorem findNodesList_eq_foldl (ty : String) (l : List ASTLike) (acc : List ASTLike) :
    findNodesList ty l acc =
      ((dfsPreList l).filter (fun n => n.type = ty)).foldl addNode acc := by
  cases l with
  | nil => rw [findNodesList, dfsPreList]; rfl
  | cons c cs =>
    rw [findNodesList, dfsPreList]
    rw [findNodes_eq_foldl ty c acc, findNodesList_eq_foldl ty cs]
    simp [List.filter_append, List.foldl_append]
termination_by sizeOf l
decreasing_by all_goals (simp_wf; try omega)

end

mutual

/-- The Structured Dumper prints exactly one line per visited node,
of the specified shape, in visit order. -/
theorem dump_inner_eq_map (src : String) (ast : ASTLike) (lvl : Nat) :
    dump_inner src ast lvl =
      (visitSeq ast lvl).map (fun p => renderLine src p.1 p.2) := by
  cases ast with
  | rule i t cs ctx =>
    cases hstop : ctx.stop <;>
      simp [dump_inner, visitSeq, renderLine, hstop, dumpList_eq_map src cs]
  | options i t opt c ctx =>
    cases opt with
    | rule oi ot ocs octx =>
      cases hstop : ctx.stop <;>
        simp [dump_inner, visitSeq, renderLine, hstop, dumpList_eq_map src ocs]
    | options oi ot oopt oc octx =>
      cases hstop : ctx.stop <;>
        simp [dump_inner, visitSeq, renderLine, hstop, dump_inner_eq_map src oc]
termination_by sizeOf ast
decreasing_by all_goals (simp_wf; try omega)

/-- Forest version of `dump_inner_eq_map`. -/
theorem dumpList_eq_map (src : String) (l : List ASTLike) (lvl : Nat) :
    dumpList src l lvl =
      (visitSeqList l lvl).map (fun p => renderLine src p.1 p.2) := by
  cases l with
  | nil => simp [dumpList, visitSeqList]
  | cons c cs =>
    simp [dumpList, visitSeqList, dump_inner_eq_map src c, dumpList_eq_map src cs]
termination_by sizeOf l
decreasing_by all_goals (simp_wf; try omega)

end

/-! ## Concrete trees used by the claims -/

/-- The two-node example of the spec: root `"program"` spanning
characters 0–4 of `"hello world"`, with one plain `"word"` child
spanning 6–10. -/
def helloTree : ASTLike :=
  .rule 0 "program"
    [.rule 1 "word" [] ⟨⟨6, 6⟩, some ⟨10, 10⟩⟩]
    ⟨⟨0, 0⟩, some ⟨4, 4⟩⟩

/-- A span-less context for structural examples. -/
def noSpan : AntlrCtx := ⟨⟨0, 0⟩, none⟩

/-- A grouped/optional node over source `"XXYY"` whose own `ctx`
spans characters 0–1 (text `"XX"`) while its `option` (type
`"clause"`, no children) spans characters 2–3 (text `"YY"`). -/
def groupedSpanTree : ASTLike :=
  .options 0 "grp"
    (.rule 1 "clause" [] ⟨⟨2, 2⟩, some ⟨3, 3⟩⟩)
    (.rule 2 "stmt" [] noSpan)
    ⟨⟨0, 0⟩, some ⟨1, 1⟩⟩

/-- A grouped/optional node whose `option.children` holds the only
node of type `"T"`, while its own `children` (the single grouped
child) holds a node of type `"B"`. -/
def groupedSearchTree : ASTLike :=
  .options 0 "grp"
    (.rule 1 "opt" [.rule 2 "T" [] noSpan] noSpan)
    (.rule 3 "B" [] noSpan)
    noSpan

/-- A single plain node with no `"Z"`-typed node anywhere. -/
def singleProgramTree : ASTLike := .rule 0 "program" [] noSpan

/-! ## Claims C2, C3, C4, C8 -/

/-- C8: for every node the Structured Dumper prints exactly one line —
two spaces of indentation per depth level, the discriminant, and, when
the node's span end exists, a colon followed by the source substring
covered inclusively by the node's span with every line break escaped
to the two characters `\\` `n` (annotation omitted when the span end
is absent); on the two-node example over `"hello world"` the output is
`program: hello` then `  word: world`. -/
theorem c8_dump_line_format :
    (∀ src ast lvl, dump_inner src ast lvl =
      (visitSeq ast lvl).map (fun p => renderLine src p.1 p.2))
    ∧ dump "hello world" helloTree = ["program: hello", "  word: world"] := by
  refine ⟨dump_inner_eq_map, ?_⟩
  simp [helloTree, dump, dump_inner, dumpList, indentOf, escapeNL,
    escapeNLChars, getCodeRange, jsSubstring]
  constructor <;> rfl

/-- C2 counterexample: on a grouped/optional node whose own span reads
`"XX"` while its `option`'s span reads `"YY"`, the Structured Dumper
prints the discriminant from `option` but the span annotation from the
node's own `ctx` — the printed annotation is `"XX"`, not the option's
`"YY"`, refuting the claim that the span annotation comes from the
`option` field. -/
theorem c2_counterexample :
    dump "XXYY" groupedSpanTree = ["clause: XX"] ∧
    escapeNL (getCodeRange "XXYY" ⟨2, 2⟩ ⟨3, 3⟩) = "YY" ∧
    ("XX" : String) ≠ "YY" := by
  refine ⟨?_, by rfl, by decide⟩
  simp [groupedSpanTree, dump, dump_inner, dumpList, indentOf, escapeNL,
    escapeNLChars, getCodeRange, jsSubstring]
  rfl

/-- C2 (amended): on every grouped/optional node the Structured Dumper
takes the displayed discriminant from `option.type` and continues
descent into `option.children`, but the span annotation comes from the
node's *own* `ctx`, not the option's. -/
theorem c2_dump_options_discriminant_own_span (src : String) (i : Nat) (t : String)
    (opt ch : ASTLike) (ctx : AntlrCtx) (lvl : Nat) :
    dump_inner src (.options i t opt ch ctx) lvl =
      (match ctx.stop with
        | some stop =>
          indentOf lvl ++ opt.type ++ ": " ++ escapeNL (getCodeRange src ctx.start stop)
        | none => indentOf lvl ++ opt.type) ::
      dumpList src opt.children (lvl + 1) := by
  cases opt with
  | rule oi ot ocs octx => cases hstop : ctx.stop <;> simp [dump_inner, hstop]
  | options oi ot oopt oc octx =>
    cases hstop : ctx.stop <;> simp [dump_inner, dumpList, hstop]

/-- C3: Generic Tree Search returns exactly the depth-first pre-order
type-matching nodes, recursing into `children` regardless of a match,
deduplicated by node identity keeping first-visited order; a tree with
no node of the requested type yields the empty sequence. -/
theorem c3_find_nodes_spec :
    (∀ ty root, findNodes ty root [] =
      dedupById ((dfsPre root).filter (fun n => n.type = ty)))
    ∧ (∀ ty root, (∀ n, n ∈ dfsPre root → n.type ≠ ty) →
        findNodes ty root [] = []) := by
  constructor
  · intro ty root
    exact findNodes_eq_foldl ty root []
  · intro ty root h
    rw [findNodes_eq_foldl ty root []]
    rw [List.filter_eq_nil_iff.mpr (fun n hn => by simp [h n hn])]
    rfl

/-- Witness for C3: the second conjunct applied to a concrete tree
with no `"Z"`-typed node. -/
theorem c3_find_nodes_spec_witness :
    (∀ n, n ∈ dfsPre singleProgramTree → n.type ≠ "Z") ∧
    findNodes "Z" singleProgramTree [] = [] := by
  have h : ∀ n, n ∈ dfsPre singleProgramTree → n.type ≠ "Z" := by
    intro n hn
    simp [singleProgramTree, dfsPre, dfsPreList] at hn
    subst hn
    simp [singleProgramTree]
  exact ⟨h, c3_find_nodes_spec.2 "Z" singleProgramTree h⟩

/-- C4 counterexample: on `groupedSearchTree` the only `"T"`-typed
node sits under `option.children`, yet Generic Tree Search returns no
`"T"` node — while it does return the `"B"` node sitting under the
node's own `children` — so traversal does not descend through
`option.children`. -/
theorem c4_counterexample :
    ((groupedSearchTree.option).children.map ASTLike.type) = ["T"] ∧
    findNodes "T" groupedSearchTree [] = [] ∧
    (findNodes "B" groupedSearchTree []).map ASTLike.type = ["B"] := by
  refine ⟨by rfl, ?_, ?_⟩ <;>
    simp [groupedSearchTree, findNodes, findNodesList, addNode, noSpan]

/-- C4 (amended): Generic Tree Search reaches a grouped/optional
node's descendants through the node's *own* `children` field (the
single grouped child); the subtree hanging off `option` is not
traversed. -/
theorem c4_find_descends_own_children (ty : String) (i : Nat) (t : String)
    (opt ch : ASTLike) (ctx : AntlrCtx) :
    findNodes ty (.options i t opt ch ctx) [] =
      dedupById (((ASTLike.options i t opt ch ctx) :: dfsPre ch).filter
        (fun n => n.type = ty)) := by
  rw [findNodes_eq_foldl, dedupById, dfsPre]

/-! ## The Symbol Rewriter (`replaceClass` / `replaceIdentifier` / `replaceType`)

A ts-morph `SourceFile`'s descendants are modelled as a tree of:
* `ident text` — a `SyntaxKind.Identifier` token with its text;
* `typed typeText children` — a node exposing `setType` (the guard
  `hasSetType`), whose `getType().getText()` is `typeText`;
* `plain children` — any other node.
`replaceIdentifier` maps over `getDescendantsOfKind(Identifier)`;
`replaceType` maps over the `hasSetType` descendants; both mutate in
place and return nothing, modelled as tree-to-tree functions. -/

/-- Model of the `SourceFile` syntax tree the rewriter walks. -/
inductive TsNode where
  | ident (text : String)
  | typed (typeText : String) (children : List TsNode)
  | plain (children : List TsNode)

mutual

/-- Source `replaceIdentifier(file, original, replacement)`: every identifier
descendant whose text equals `original` is replaced by `replacement`. -/
def replaceIdentifier (original replacement : String) : TsNode → TsNode
  | .ident text => if text = original then .ident replacement else .ident text
  | .typed ty cs => .typed ty (replaceIdentifierList original replacement cs)
  | .plain cs => .plain (replaceIdentifierList original replacement cs)
termination_by n => sizeOf n
decreasing_by all_goals (simp_wf; try omega)

/-- The forEach over the identifier descendants of a node list. -/
def replaceIdentifierList (original replacement : String) : List TsNode → List TsNode
  | [] => []
  | c :: cs =>
    replaceIdentifier original replacement c :: replaceIdentifierList original replacement cs
termination_by l => sizeOf l
decreasing_by all_goals (simp_wf; try omega)

end

mutual

/-- Source `replaceType(file, original, replacement)`: every `hasSetType`
descendant whose `getType().getText()` equals `original` gets
`setType(replacement)`. -/
def replaceType (original replacement : String) : TsNode → TsNode
  | .ident text => .ident text
  | .typed ty cs =>
    .typed (if ty = original then replacement else ty)
      (replaceTypeList original replacement cs)
  | .plain cs => .plain (replaceTypeList original replacement cs)
termination_by n => sizeOf n
decreasing_by all_goals (simp_wf; try omega)

/-- The forEach over the `hasSetType` descendants of a node list. -/
def replaceTypeList (original replacement : String) : List TsNode → List TsNode
  | [] => []
  | c :: cs => replaceType original replacement c :: replaceTypeList original replacement cs
termination_by l => sizeOf l
decreasing_by all_goals (simp_wf; try omega)

end

/-- Source `replaceClass(file, original, replacement)` runs `replaceType`
then `replaceIdentifier` on the same tree. -/
def replaceClass (file : TsNode) (original replacement : String) : TsNode :=
  replaceIdentifier original replacement (replaceType original replacement file)

mutual

/-- The texts of all identifier tokens reachable in a tree, in order. -/
def collectIdents : TsNode → List String
  | .ident text => [text]
  | .typed _ cs => collectIdentsList cs
  | .plain cs => collectIdentsList cs
termination_by n => sizeOf n
decreasing_by all_goals (simp_wf; try omega)

/-- Identifier texts of a node list. -/
def collectIdentsList : List TsNode → List String
  | [] => []
  | c :: cs => collectIdents c ++ collectIdentsList cs
termination_by l => sizeOf l
decreasing_by all_goals (simp_wf; try omega)

end

mutual

/-- The declared-type texts of all `hasSetType` nodes reachable in a
tree, in order. -/
def collectTypes : TsNode → List String
  | .ident _ => []
  | .typed ty cs => ty :: collectTypesList cs
  | .plain cs => collectTypesList cs
termination_by n => sizeOf n
decreasing_by all_goals (simp_wf; try omega)

/-- Declared-type texts of a node list. -/
def collectTypesList : List TsNode → List String
  | [] => []
  | c :: cs => collectTypes c ++ collectTypesList cs
termination_by l => sizeOf l
decreasing_by all_goals (simp_wf; try omega)

end

/-- The exact-match substitution the rewriter is specified to apply. -/
def substName (original replacement : String) (s : String) : String :=
  if s = original then replacement else s

mutual

/-- Lemma: `replaceIdentifier` substitutes exactly the matching identifier
texts, position by position. -/
theorem collectIdents_replaceIdentifier (o r : String) (t : TsNode) :
    collectIdents (replaceIdentifier o r t) =
      (collectIdents t).map (substName o r) := by
  cases t with
  | ident text =>
    by_cases h : text = o <;> simp [replaceIdentifier, collectIdents, substName, h]
  | typed ty cs =>
    simp [replaceIdentifier, collectIdents, collectIdents_replaceIdentifierList o r cs]
  | plain cs =>
    simp [replaceIdentifier, collectIdents, collectIdents_replaceIdentifierList o r cs]
termination_by sizeOf t
decreasing_by all_goals (simp_wf; try omega)

/-- List version of `collectIdents_replaceIdentifier`. -/
theorem collectIdents_replaceIdentifierList (o r : String) (l : List TsNode) :
    collectIdentsList (replaceIdentifierList o r l) =
      (collectIdentsList l).map (substName o r) := by
  cases l with
  | nil => simp [replaceIdentifierList, collectIdentsList]
  | cons c cs =>
    simp [replaceIdentifierList, collectIdentsList,
      collectIdents_replaceIdentifier o r c, collectIdents_replaceIdentifierList o r cs]
termination_by sizeOf l
decreasing_by all_goals (simp_wf; try omega)

end

mutual

/-- Lemma: `replaceType` leaves identifier tokens untouched. -/
theorem collectIdents_replaceType (o r : String) (t : TsNode) :
    collectIdents (replaceType o r t) = collectIdents t := by
  cases t with
  | ident text => simp [replaceType, collectIdents]
  | typed ty cs => simp [replaceType, collectIdents, collectIdents_replaceTypeList o r cs]
  | plain cs => simp [replaceType, collectIdents, collectIdents_replaceTypeList o r cs]
termination_by sizeOf t
decreasing_by all_goals (simp_wf; try omega)

/-- List version of `collectIdents_replaceType`. -/
theorem collectIdents_replaceTypeList (o r : String) (l : List TsNode) :
    collectIdentsList (replaceTypeList o r l) = collectIdentsList l := by
  cases l with
  | nil => simp [replaceTypeList, collectIdentsList]
  | cons c cs =>
    simp [replaceTypeList, collectIdentsList,
      collectIdents_replaceType o r c, collectIdents_replaceTypeList o r cs]
termination_by sizeOf l
decreasing_by all_goals (simp_wf; try omega)

end

mutual

/-- Lemma: `replaceType` substitutes exactly the matching declared-type
texts, position by position. -/
theorem collectTypes_replaceType (o r : String) (t : TsNode) :
    collectTypes (replaceType o r t) = (collectTypes t).map (substName o r) := by
  cases t with
  | ident text => simp [replaceType, collectTypes]
  | typed ty cs =>
    by_cases h : ty = o <;>
      simp [replaceType, collectTypes, substName, h, collectTypes_replaceTypeList o r cs]
  | plain cs => simp [replaceType, collectTypes, collectTypes_replaceTypeList o r cs]
termination_by sizeOf t
decreasing_by all_goals (simp_wf; try omega)

/-- List version of `collectTypes_replaceType`. -/
theorem collectTypes_replaceTypeList (o r : String) (l : List TsNode) :
    collectTypesList (replaceTypeList o r l) = (collectTypesList l).map (substName o r) := by
  cases l with
  | nil => simp [replaceTypeList, collectTypesList]
  | cons c cs =>
    simp [replaceTypeList, collectTypesList,
      collectTypes_replaceType o r c, collectTypes_replaceTypeList o r cs]
termination_by sizeOf l
decreasing_by all_goals (simp_wf; try omega)

end

mutual

/-- Lemma: `replaceIdentifier` leaves declared-type texts untouched. -/
theorem collectTypes_replaceIdentifier (o r : String) (t : TsNode) :
    collectTypes (replaceIdentifier o r t) = collectTypes t := by
  cases t with
  | ident text => by_cases h : text = o <;> simp [replaceIdentifier, collectTypes, h]
  | typed ty cs =>
    simp [replaceIdentifier, collectTypes, collectTypes_replaceIdentifierList o r cs]
  | plain cs =>
    simp [replaceIdentifier, collectTypes, collectTypes_replaceIdentifierList o r cs]
termination_by sizeOf t
decreasing_by all_goals (simp_wf; try omega)

/-- List version of `collectTypes_replaceIdentifier`. -/
theorem collectTypes_replaceIdentifierList (o r : String) (l : List TsNode) :
    collectTypesList (replaceIdentifierList o r l) = collectTypesList l := by
  cases l with
  | nil => simp [replaceIdentifierList, collectTypesList]
  | cons c cs =>
    simp [replaceIdentifierList, collectTypesList,
      collectTypes_replaceIdentifier o r c, collectTypes_replaceIdentifierList o r cs]
termination_by sizeOf l
decreasing_by all_goals (simp_wf; try omega)

end

/-! ## Claim C7 -/

/-- C7 counterexample: with `original = replacement = "A"`, rewriting
the one-identifier tree leaves an identifier token whose text equals
`original` reachable, refuting the universally quantified claim that
zero such tokens remain. -/
theorem c7_counterexample :
    "A" ∈ collectIdents (replaceClass (TsNode.ident "A") "A" "A") := by
  simp [replaceClass, replaceType, replaceIdentifier, collectIdents]

/-- C7 (amended): provided the replacement name differs from the
original, after the Symbol Rewriter runs zero identifier tokens with
text `original` remain reachable, and exactly the identifier tokens
and declared-type annotations that previously read `original` now read
`replacement` (all other texts are unchanged, position by position). -/
theorem c7_rewriter_exact (o r : String) (t : TsNode) (h : r ≠ o) :
    o ∉ collectIdents (replaceClass t o r) ∧
    collectIdents (replaceClass t o r) = (collectIdents t).map (substName o r) ∧
    collectTypes (replaceClass t o r) = (collectTypes t).map (substName o r) := by
  have hids : collectIdents (replaceClass t o r) = (collectIdents t).map (substName o r) := by
    rw [replaceClass, collectIdents_replaceIdentifier, collectIdents_replaceType]
  have htys : collectTypes (replaceClass t o r) = (collectTypes t).map (substName o r) := by
    rw [replaceClass, collectTypes_replaceIdentifier, collectTypes_replaceType]
  refine ⟨?_, hids, htys⟩
  rw [hids]
  intro hmem
  obtain ⟨s, _, heq⟩ := List.mem_map.mp hmem
  by_cases hs : s = o
  · rw [substName, if_pos hs] at heq
    exact h heq
  · rw [substName, if_neg hs] at heq
    exact hs heq

/-- Witness for C7 (amended) on a concrete template-like tree. -/
theorem c7_rewriter_exact_witness :
    ("MyLexer" : String) ≠ "AntlrLexer" ∧
    collectIdents (replaceClass (TsNode.typed "AntlrLexer"
      [TsNode.ident "AntlrLexer", TsNode.ident "x"]) "AntlrLexer" "MyLexer") =
      ["MyLexer", "x"] ∧
    collectTypes (replaceClass (TsNode.typed "AntlrLexer"
      [TsNode.ident "AntlrLexer", TsNode.ident "x"]) "AntlrLexer" "MyLexer") =
      ["MyLexer"] := by
  have h : ("MyLexer" : String) ≠ "AntlrLexer" := by decide
  have hmain := c7_rewriter_exact "AntlrLexer" "MyLexer"
    (TsNode.typed "AntlrLexer" [TsNode.ident "AntlrLexer", TsNode.ident "x"]) h
  refine ⟨h, ?_, ?_⟩
  · rw [hmain.2.1]
    simp [collectIdents, collectIdentsList, substName]
  · rw [hmain.2.2]
    simp [collectTypes, collectTypesList, substName]

/-! ## The Rule Model (`Parser` of `../langkit`)

Modelled from the spec: `../langkit` is outside the repository's
staged sources; §3/§6 describe an ordered rule list whose first
element is the root rule, with `name` fields, a `lexer`, and
`toAntlr()` serializations.  The codegen core reads nothing else. -/

/-- Modelled from the spec: one rule declaration; the core reads only
its `name`. -/
structure Rule where
  name : String
deriving DecidableEq, Repr

/-- Modelled from the spec: the lexer declaration, with its `name` and
its serialized grammar text `toAntlr()`. -/
structure Lexer where
  name : String
  toAntlr : String
deriving DecidableEq, Repr

/-- Modelled from the spec: the Rule Model (`Parser` of `../langkit`):
named, with a lexer, an ordered rule list (first rule = root rule),
and a serialized grammar text. -/
structure Parser where
  name : String
  lexer : Lexer
  rules : List Rule
  toAntlr : String
deriving DecidableEq, Repr

/-- Failure taxonomy of a generation run: `emptyRules` models
`throw Error('Empty Parser rules')`; `antlrFailure` the two non-zero
antlr4ts exit checks (carrying which grammar failed); `ioFailure` the
template-copy error path; `structuralMismatch` the throwing template
lookups (`getClassOrThrow`, `getMethodOrThrow`, `asKindOrThrow`) and
the `TypeError`s the JS would raise on a missing declarator or a
missing root rule. -/
inductive GenError where
  | emptyRules
  | antlrFailure (stage : String) (code : Int)
  | ioFailure (msg : String)
  | structuralMismatch (msg : String)
deriving DecidableEq, Repr

/-- Modelled from the spec: the package-manager selector accepted by
`spawn` (`'none'` resorts to antlr4ts in the environment). -/
abbrev SpawnPKM := String

/-- One `spawn` invocation as the external process layer receives it:
command, argument array, and the third (`pkm`) parameter — `none`
when the call site passes only two arguments, in which case `spawn`
falls back to its default package-manager resolution. -/
structure SpawnCall where
  cmd : String
  args : List String
  pkm : Option SpawnPKM
deriving DecidableEq, Repr

/-- Source `runAntlr`: serializes both grammars and invokes antlr4ts once per
grammar file.  The subprocess behavior is abstracted as an exit-code
oracle `spawnExit`; the returned list records each `spawn` call made,
in order (the `fs.mkdir`/`fs.writeFile` of the grammar text files touch
only the grammar files, which no claim concerns, and are elided).
The source's second invocation reads
`({ code } = await spawn('antlr4ts', ['-visitor', parserFile]), pkm);`
— a comma expression: `pkm` stands *outside* the argument list, so
that `spawn` receives only two arguments. -/
def runAntlr (spawnExit : SpawnCall → Int) (p : Parser) (pkm : Option SpawnPKM) :
    List SpawnCall × Except GenError Unit :=
  let lexerFile := "generated/antlr/" ++ p.lexer.name ++ ".g4"
  let parserFile := "generated/antlr/" ++ p.name ++ ".g4"
  let call1 : SpawnCall := ⟨"antlr4ts", ["-visitor", lexerFile], pkm⟩
  let code1 := spawnExit call1
  if code1 ≠ 0 then ([call1], .error (.antlrFailure "lexer" code1))
  else
    let call2 : SpawnCall := ⟨"antlr4ts", ["-visitor", parserFile], none⟩
    let code2 := spawnExit call2
    if code2 ≠ 0 then ([call1, call2], .error (.antlrFailure "parser" code2))
    else ([call1, call2], .ok ())

/-! ## The template source model and the Entry-Point Binder -/

/-- A variable declarator (`getDeclarations()[i]`): its name and its
optional initializer expression text. -/
structure VariableDeclarator where
  name : String
  initializer : Option String
deriving DecidableEq, Repr

/-- A statement: a `SyntaxKind.VariableStatement` with its declarator
list, or any other statement kind with its text. -/
inductive Statement where
  | variableStatement (decls : List VariableDeclarator)
  | otherStatement (text : String)
deriving DecidableEq, Repr

/-- A class method: name and statement list. -/
structure MethodDecl where
  name : String
  statements : List Statement
deriving DecidableEq, Repr

/-- A class declaration: name and methods. -/
structure ClassDecl where
  name : String
  methods : List MethodDecl
deriving DecidableEq, Repr

/-- An import declaration: module specifier and named imports. -/
structure ImportSpec where
  moduleSpecifier : String
  namedImports : List String
deriving DecidableEq, Repr

/-- Model of a ts-morph `SourceFile`: its import declarations, the
declaration-level view the Entry-Point Binder navigates (`classes`),
and the token-level view the Symbol Rewriter walks (`body`).  These
are two facets of the one underlying AST; the split is sound for the
shipped template because the placeholder names
(`AntlrLexer`/`AntlrParser`) rewritten by `replaceClass` are reserved
and distinct from the structural names (`Parser`, `buildAST`) that the
binder looks up. -/
structure SourceFileModel where
  imports : List ImportSpec
  classes : List ClassDecl
  body : TsNode

/-- Lookup of `file.getClassOrThrow(name)`: the first class declaration
with the given name (`none` models the throw). -/
def getClass (file : SourceFileModel) (name : String) : Option ClassDecl :=
  file.classes.find? (fun c => c.name = name)

/-- Lookup of `cls.getMethodOrThrow(name)`. -/
def getMethod (cls : ClassDecl) (name : String) : Option MethodDecl :=
  cls.methods.find? (fun m => m.name = name)

/-- In-place mutation of the first list element satisfying `pred`,
rebuilt functionally. -/
def updateFirst (pred : α → Bool) (f : α → α) : List α → List α
  | [] => []
  | x :: xs => if pred x then f x :: xs else x :: updateFirst pred f xs

/-- The statement-list rewrite `decl.set({ initializer })` performs:
the first statement's first declarator receives the new initializer
(other shapes are left unchanged; `generateParserFile` only reaches
this in the variable-statement case). -/
def bindStatements (init : String) (stmts : List Statement) : List Statement :=
  match stmts with
  | Statement.variableStatement (d :: ds) :: rest =>
    Statement.variableStatement ({ d with initializer := some init } :: ds) :: rest
  | other => other

/-- The `buildAST` method after `decl.set({ initializer })`. -/
def bindMethod (init : String) (m : MethodDecl) : MethodDecl :=
  { m with statements := bindStatements init m.statements }

/-- The `Parser` class after `decl.set({ initializer })` on its
`buildAST` method. -/
def bindClass (init : String) (c : ClassDecl) : ClassDecl :=
  { c with methods :=
      (updateFirst (fun m => m.name = "buildAST") (bindMethod init) c.methods) }

/-- The mutation `decl.set({ initializer })` on the first declarator of the first
statement of method `buildAST` of class `Parser`, rebuilt
functionally (the live ts-morph objects alias the file's tree). -/
def setBuildAstInitializer (file : SourceFileModel) (init : String) : SourceFileModel :=
  { file with classes :=
      (updateFirst (fun c => c.name = "Parser") (bindClass init) file.classes) }

/-- The in-memory phase of `generateParser` after the template copy:
attach the two antlr import declarations, run `replaceClass` for the
`AntlrLexer` and `AntlrParser` placeholders, then bind the entry
point: locate class `Parser`, method `buildAST`, require its first
statement to be a variable statement, and replace the first
declarator's initializer with the invocation of the entry rule keyed
off the root rule's name.  Throwing lookups become `Except.error`;
the two spots where the JS would crash with a `TypeError`
(`getDeclarations()[0]` undefined, `parser.rules[0]` undefined) are
modelled as `structuralMismatch` errors as well — `generate` never
reaches the latter because it rejects empty rule lists up front. -/
def generateParserFile (tpl : SourceFileModel) (p : Parser) :
    Except GenError SourceFileModel :=
  let LexerIdent := p.lexer.name
  let ParserIdent := p.name
  let file : SourceFileModel :=
    { imports := tpl.imports ++
        [⟨"./antlr/" ++ LexerIdent, [LexerIdent]⟩,
         ⟨"./antlr/" ++ ParserIdent, [ParserIdent]⟩],
      classes := tpl.classes,
      body := replaceClass (replaceClass tpl.body "AntlrLexer" LexerIdent)
        "AntlrParser" ParserIdent }
  match getClass file "Parser" with
  | none => .error (.structuralMismatch "class Parser not found")
  | some cls =>
    match getMethod cls "buildAST" with
    | none => .error (.structuralMismatch "method buildAST not found")
    | some method =>
      match method.statements with
      | [] => .error (.structuralMismatch "buildAST has no statements")
      | Statement.otherStatement _ :: _ =>
        .error (.structuralMismatch "first statement is not a variable statement")
      | Statement.variableStatement [] :: _ =>
        .error (.structuralMismatch "variable statement has no declarator")
      | Statement.variableStatement (_ :: _) :: _ =>
        match p.rules with
        | [] => .error (.structuralMismatch "no root rule")
        | rootRule :: _ =>
          .ok (setBuildAstInitializer file ("this._parser['" ++ rootRule.name ++ "']()"))

/-- Source `generateVisitor`: a fresh source file whose only content
is the import declaration of `<ParserName>Visitor` taken from
`./antlr/<ParserName>Visitor` (the source computes
`root = parser.rules[0]` but never uses it). -/
def generateVisitorFile (p : Parser) : SourceFileModel :=
  { imports := [⟨"./antlr/" ++ p.name ++ "Visitor", [p.name ++ "Visitor"]⟩],
    classes := [],
    body := .plain [] }

/-! ## The persisted filesystem and `generateCode` -/

/-- The persisted output files: an association of paths to module
contents; later writes shadow earlier ones. -/
structure FsState where
  files : List (String × SourceFileModel)

/-- Persist one file. -/
def fsWrite (fs : FsState) (path : String) (content : SourceFileModel) : FsState :=
  ⟨(path, content) :: fs.files⟩

/-- Read one persisted file. -/
def fsRead (fs : FsState) (path : String) : Option SourceFileModel :=
  (fs.files.find? (fun pc => pc.1 = path)).map (fun pc => pc.2)

/-- Path `path.join(DIR, 'Parser.ts')`, the generated parser module. -/
def parserModulePath : String := "generated/Parser.ts"

/-- Path `` `${DIR}/Visitor.ts` ``, the generated visitor module. -/
def visitorModulePath : String := "generated/Visitor.ts"

/-- Source `generateCode`: `fs.copySync` persists the raw template at
`generated/Parser.ts` *immediately* (the default ts-morph `Project`'s
`getFileSystem()` is the real file system, so `copySync` is not
staged), then the in-memory edits of `generateParser` and
`generateVisitor` run, and only `project.save()` at the very end
persists those edits (both module files).  If `generateParser` fails,
`Promise.all` rejects and `project.save()` never runs — but the copy
already happened.  The template source arrives as an `Except`:
`.error` models a failing copy (`IOFailure`), covering also the
`if (!file) throw Error('Failed to copy Parser template source file')`
check. -/
def generateCode (tpl : Except String SourceFileModel) (p : Parser) (fs0 : FsState) :
    FsState × Except GenError Unit :=
  match tpl with
  | .error e => (fs0, .error (.ioFailure e))
  | .ok tplFile =>
    let fs1 := fsWrite fs0 parserModulePath tplFile
    match generateParserFile tplFile p with
    | .error e => (fs1, .error e)
    | .ok parserFile =>
      (fsWrite (fsWrite fs1 parserModulePath parserFile) visitorModulePath
        (generateVisitorFile p), .ok ())

/-- Source `generate`: the empty-rules precondition check (before any I/O),
then `runAntlr`, then `generateCode`. -/
def generate (spawnExit : SpawnCall → Int) (tpl : Except String SourceFileModel)
    (p : Parser) (pkm : Option SpawnPKM) (fs0 : FsState) :
    List SpawnCall × FsState × Except GenError Unit :=
  if p.rules.isEmpty then ([], fs0, .error .emptyRules)
  else
    let ant := runAntlr spawnExit p pkm
    match ant.2 with
    | .error e => (ant.1, fs0, .error e)
    | .ok _ =>
      let gen := generateCode tpl p fs0
      (ant.1, gen.1, gen.2)

/-! ## Helper lemmas for the pipeline claims -/

@[simp] theorem getClass_mk (imps : List ImportSpec) (cs : List ClassDecl)
    (bdy : TsNode) (n : String) :
    getClass ⟨imps, cs, bdy⟩ n = cs.find? (fun c => c.name = n) := rfl

@[simp] theorem fsRead_fsWrite_same (fs : FsState) (p : String) (c : SourceFileModel) :
    fsRead (fsWrite fs p c) p = some c := by
  simp [fsRead, fsWrite]

theorem fsRead_fsWrite_other (fs : FsState) (p q : String) (c : SourceFileModel)
    (h : p ≠ q) : fsRead (fsWrite fs p c) q = fsRead fs q := by
  simp [fsRead, fsWrite, List.find?, h]

/-- Updating the first `pred`-satisfying element is visible to `find?`
exactly there, provided the update preserves `pred`. -/
theorem find?_updateFirst {α : Type} (pred : α → Bool) (f : α → α) (l : List α) (x : α)
    (hx : l.find? pred = some x) (hf : pred (f x) = true) :
    (updateFirst pred f l).find? pred = some (f x) := by
  induction l with
  | nil => simp at hx
  | cons a as ih =>
    by_cases h : pred a
    · rw [List.find?_cons_of_pos _ h] at hx
      injection hx with hx
      subst hx
      rw [updateFirst]
      simp only [h, if_true]
      rw [List.find?_cons_of_pos _ hf]
    · rw [List.find?_cons_of_neg _ h] at hx
      rw [updateFirst]
      simp only [h, if_false, Bool.false_eq_true]
      rw [List.find?_cons_of_neg _ h, ih hx]

/-! ## Claim C10 -/

/-- C10: the lexer-grammar antlr4ts invocation receives the configured
package-manager option as `spawn`'s third argument, but the
parser-grammar invocation calls `spawn` with only two arguments (the
`pkm` operand sits outside the argument list in a comma expression),
so the parser-grammar compilation always uses the default
package-manager resolution. -/
theorem c10_parser_spawn_drops_pkm (se : SpawnCall → Int) (p : Parser)
    (pkm : Option SpawnPKM) :
    (runAntlr se p pkm).1.head? =
      some ⟨"antlr4ts", ["-visitor", "generated/antlr/" ++ p.lexer.name ++ ".g4"], pkm⟩ ∧
    (∀ c2, (runAntlr se p pkm).1.get? 1 = some c2 →
      c2 = ⟨"antlr4ts", ["-visitor", "generated/antlr/" ++ p.name ++ ".g4"], none⟩) := by
  simp only [runAntlr]
  split
  · exact ⟨rfl, by intro c2 hc2; simp at hc2⟩
  · split
    · exact ⟨rfl, by intro c2 hc2; simp at hc2; exact hc2.symm⟩
    · exact ⟨rfl, by intro c2 hc2; simp at hc2; exact hc2.symm⟩

/-- A concrete Rule Model used by several claims. -/
def cParser : Parser :=
  { name := "MyParser",
    lexer := { name := "MyLexer", toAntlr := "lexer grammar MyLexer;" },
    rules := [{ name := "root" }, { name := "extra" }],
    toAntlr := "parser grammar MyParser;" }

/-- Witness for C10: on a run whose antlr invocations both exit 0 and
whose option is `'yarn'`, the recorded second call carries no
package-manager argument while the first carries `'yarn'`. -/
theorem c10_parser_spawn_drops_pkm_witness :
    (runAntlr (fun _ => 0) cParser (some "yarn")).1.get? 1 =
      some ⟨"antlr4ts", ["-visitor", "generated/antlr/MyParser.g4"], none⟩ ∧
    (⟨"antlr4ts", ["-visitor", "generated/antlr/MyParser.g4"], none⟩ : SpawnCall) =
      ⟨"antlr4ts", ["-visitor", "generated/antlr/" ++ cParser.name ++ ".g4"], none⟩ :=
  ⟨rfl, (c10_parser_spawn_drops_pkm (fun _ => 0) cParser (some "yarn")).2
    ⟨"antlr4ts", ["-visitor", "generated/antlr/MyParser.g4"], none⟩ rfl⟩

/-! ## Concrete templates used by the pipeline claims -/

/-- The lone declarator of the conforming template's first statement. -/
def tplDeclarator : VariableDeclarator := ⟨"ast", some "PLACEHOLDER"⟩

/-- The conforming template's `buildAST` method: a variable statement
first, then a return. -/
def tplBuildAst : MethodDecl :=
  ⟨"buildAST", [Statement.variableStatement [tplDeclarator],
    Statement.otherStatement "return ast"]⟩

/-- The conforming template's `Parser` class. -/
def tplParserCls : ClassDecl := ⟨"Parser", [tplBuildAst]⟩

/-- A conforming template source. -/
def goodTpl : SourceFileModel :=
  ⟨[], [tplParserCls], .plain [.ident "AntlrLexer", .ident "AntlrParser"]⟩

/-- A `buildAST` whose first statement is not a variable statement. -/
def badBuildAst : MethodDecl :=
  ⟨"buildAST", [Statement.otherStatement "return this.parse()"]⟩

/-- The broken template's `Parser` class. -/
def badParserCls : ClassDecl := ⟨"Parser", [badBuildAst]⟩

/-- A template whose `buildAST`'s first statement is not a variable
statement (the Template Source contract violated). -/
def badFirstStmtTpl : SourceFileModel := ⟨[], [badParserCls], .plain []⟩

/-- The empty persisted filesystem. -/
def fsEmpty : FsState := ⟨[]⟩

/-! ## Claim C5 -/

/-- C5: on a conforming template, after the Entry-Point Binder runs,
the first statement of `buildAST` of class `Parser` is a variable
statement whose first declarator's initializer invokes the
compiler-generated entry rule keyed off the root rule's name (the
first rule of the Rule Model); in particular the initializer textually
contains the root rule's name. -/
theorem c5_entry_point_bound (tpl : SourceFileModel) (p : Parser)
    (cls : ClassDecl) (method : MethodDecl) (d : VariableDeclarator)
    (ds : List VariableDeclarator) (rest : List Statement) (r : Rule) (rs : List Rule)
    (hc : getClass tpl "Parser" = some cls)
    (hm : getMethod cls "buildAST" = some method)
    (hs : method.statements = Statement.variableStatement (d :: ds) :: rest)
    (hr : p.rules = r :: rs) :
    ∃ out, generateParserFile tpl p = Except.ok out ∧
      ∃ cls2 method2,
        getClass out "Parser" = some cls2 ∧
        getMethod cls2 "buildAST" = some method2 ∧
        method2.statements =
          Statement.variableStatement
            ({ d with initializer := some ("this._parser['" ++ r.name ++ "']()") } :: ds)
            :: rest ∧
        (r.name).data <:+: ("this._parser['" ++ r.name ++ "']()").data := by
  have hc' : tpl.classes.find? (fun c => c.name = "Parser") = some cls := hc
  have hm' : cls.methods.find? (fun m => m.name = "buildAST") = some method := hm
  have hgen : generateParserFile tpl p = Except.ok (setBuildAstInitializer
      ⟨tpl.imports ++ [⟨"./antlr/" ++ p.lexer.name, [p.lexer.name]⟩,
        ⟨"./antlr/" ++ p.name, [p.name]⟩],
       tpl.classes,
       replaceClass (replaceClass tpl.body "AntlrLexer" p.lexer.name)
         "AntlrParser" p.name⟩
      ("this._parser['" ++ r.name ++ "']()")) := by
    simp only [generateParserFile, getClass_mk]
    rw [hc']
    dsimp only
    simp only [getMethod]
    rw [hm']
    dsimp only
    rw [hs]
    dsimp only
    rw [hr]
  refine ⟨_, hgen, ?_⟩
  have hfcls : (fun c : ClassDecl => decide (c.name = "Parser"))
      (bindClass ("this._parser['" ++ r.name ++ "']()") cls) = true := by
    simpa [bindClass] using List.find?_some hc'
  have hfm : (fun m : MethodDecl => decide (m.name = "buildAST"))
      (bindMethod ("this._parser['" ++ r.name ++ "']()") method) = true := by
    simpa [bindMethod] using List.find?_some hm'
  refine ⟨bindClass ("this._parser['" ++ r.name ++ "']()") cls,
    bindMethod ("this._parser['" ++ r.name ++ "']()") method, ?_, ?_, ?_, ?_⟩
  · show (updateFirst (fun c => c.name = "Parser")
      (bindClass ("this._parser['" ++ r.name ++ "']()")) tpl.classes).find?
        (fun c => c.name = "Parser") = _
    exact find?_updateFirst _ _ _ cls hc' hfcls
  · show (updateFirst (fun m => m.name = "buildAST")
      (bindMethod ("this._parser['" ++ r.name ++ "']()")) cls.methods).find?
        (fun m => m.name = "buildAST") = _
    exact find?_updateFirst _ _ _ method hm' hfm
  · show bindStatements _ method.statements = _
    rw [hs, bindStatements]
  · refine ⟨"this._parser['".data, "']()".data, ?_⟩
    rw [List.append_assoc]
    show "this._parser['".data ++ (r.name.data ++ "']()".data) =
      ("this._parser['" ++ r.name ++ "']()").data
    rfl

/-- Witness for C5: the conforming template `goodTpl` with Rule Model
`cParser` (root rule `root`). -/
theorem c5_entry_point_bound_witness :
    getClass goodTpl "Parser" = some tplParserCls ∧
    getMethod tplParserCls "buildAST" = some tplBuildAst ∧
    tplBuildAst.statements = Statement.variableStatement (tplDeclarator :: []) ::
      [Statement.otherStatement "return ast"] ∧
    cParser.rules = ⟨"root"⟩ :: [⟨"extra"⟩] ∧
    (∃ out, generateParserFile goodTpl cParser = Except.ok out ∧
      ∃ cls2 method2,
        getClass out "Parser" = some cls2 ∧
        getMethod cls2 "buildAST" = some method2 ∧
        method2.statements =
          Statement.variableStatement
            ({ tplDeclarator with
                initializer := some ("this._parser['" ++ Rule.name ⟨"root"⟩ ++ "']()") } :: [])
            :: [Statement.otherStatement "return ast"] ∧
        (Rule.name ⟨"root"⟩).data <:+:
          ("this._parser['" ++ Rule.name ⟨"root"⟩ ++ "']()").data) :=
  ⟨rfl, rfl, rfl, rfl,
    c5_entry_point_bound goodTpl cParser tplParserCls tplBuildAst tplDeclarator []
      [Statement.otherStatement "return ast"] ⟨"root"⟩ [⟨"extra"⟩] rfl rfl rfl rfl⟩

/-! ## Claim C6 -/

/-- C6: the Entry-Point Binder fails with a `structuralMismatch` error
— raised, not silently ignored — whenever the target class or method
cannot be located in the template, or the designated method's first
statement is not a variable declaration. -/
theorem c6_binder_structural_mismatch (tpl : SourceFileModel) (p : Parser)
    (h : getClass tpl "Parser" = none ∨
      (∃ cls, getClass tpl "Parser" = some cls ∧ getMethod cls "buildAST" = none) ∨
      (∃ cls method, getClass tpl "Parser" = some cls ∧
        getMethod cls "buildAST" = some method ∧
        ∀ decls rest, method.statements ≠ Statement.variableStatement decls :: rest)) :
    ∃ msg, generateParserFile tpl p = Except.error (GenError.structuralMismatch msg) := by
  rcases h with hnone | ⟨cls, hc, hmnone⟩ | ⟨cls, method, hc, hm, hstmt⟩
  · have hc' : tpl.classes.find? (fun c => c.name = "Parser") = none := hnone
    refine ⟨"class Parser not found", ?_⟩
    simp only [generateParserFile, getClass_mk]
    rw [hc']
  · have hc' : tpl.classes.find? (fun c => c.name = "Parser") = some cls := hc
    have hm' : cls.methods.find? (fun m => m.name = "buildAST") = none := hmnone
    refine ⟨"method buildAST not found", ?_⟩
    simp only [generateParserFile, getClass_mk]
    rw [hc']
    dsimp only
    simp only [getMethod]
    rw [hm']
  · have hc' : tpl.classes.find? (fun c => c.name = "Parser") = some cls := hc
    have hm' : cls.methods.find? (fun m => m.name = "buildAST") = some method := hm
    rcases hms : method.statements with _ | ⟨s, srest⟩
    · refine ⟨"buildAST has no statements", ?_⟩
      simp only [generateParserFile, getClass_mk]
      rw [hc']
      dsimp only
      simp only [getMethod]
      rw [hm']
      dsimp only
      rw [hms]
    · cases s with
      | variableStatement decls => exact absurd hms (hstmt decls srest)
      | otherStatement txt =>
        refine ⟨"first statement is not a variable statement", ?_⟩
        simp only [generateParserFile, getClass_mk]
        rw [hc']
        dsimp only
        simp only [getMethod]
        rw [hm']
        dsimp only
        rw [hms]

/-- Witness for C6: a template whose `buildAST`'s first statement is a
return statement raises `structuralMismatch`. -/
theorem c6_binder_structural_mismatch_witness :
    (getClass badFirstStmtTpl "Parser" = none ∨
      (∃ cls, getClass badFirstStmtTpl "Parser" = some cls ∧
        getMethod cls "buildAST" = none) ∨
      (∃ cls method, getClass badFirstStmtTpl "Parser" = some cls ∧
        getMethod cls "buildAST" = some method ∧
        ∀ decls rest, method.statements ≠ Statement.variableStatement decls :: rest)) ∧
    ∃ msg, generateParserFile badFirstStmtTpl cParser =
      Except.error (GenError.structuralMismatch msg) :=
  have h : getClass badFirstStmtTpl "Parser" = none ∨
      (∃ cls, getClass badFirstStmtTpl "Parser" = some cls ∧
        getMethod cls "buildAST" = none) ∨
      (∃ cls method, getClass badFirstStmtTpl "Parser" = some cls ∧
        getMethod cls "buildAST" = some method ∧
        ∀ decls rest, method.statements ≠ Statement.variableStatement decls :: rest) :=
    Or.inr (Or.inr ⟨badParserCls, badBuildAst, rfl, rfl,
      fun decls rest hcon => by simp [badBuildAst] at hcon⟩)
  ⟨h, c6_binder_structural_mismatch badFirstStmtTpl cParser h⟩

/-! ## Claim C1 -/

/-- C1 counterexample: with a template whose `buildAST`'s first
statement is not a variable statement, the run fails — yet the parser
module file is already persisted (with the raw template content, by
the eager `fs.copySync`) while the visitor module is not: exactly one
of the two output modules is left written, refuting atomicity. -/
theorem c1_counterexample :
    (generateCode (Except.ok badFirstStmtTpl) cParser fsEmpty).2 =
      Except.error (GenError.structuralMismatch
        "first statement is not a variable statement") ∧
    fsRead (generateCode (Except.ok badFirstStmtTpl) cParser fsEmpty).1
      parserModulePath = some badFirstStmtTpl ∧
    fsRead (generateCode (Except.ok badFirstStmtTpl) cParser fsEmpty).1
      visitorModulePath = none :=
  ⟨rfl, rfl, rfl⟩

/-- C1 (amended): on success both output modules are persisted; if the
template copy itself fails, nothing is persisted; but a failure *after*
the copy leaves the parser module persisted with the raw template
content while the visitor module location is untouched — the copy step
is not staged, so atomicity holds only up to that eager write. -/
theorem c1_atomicity_amended (tpl : Except String SourceFileModel) (p : Parser)
    (fs0 : FsState) :
    ((generateCode tpl p fs0).2 = Except.ok () →
      (∃ pf, fsRead (generateCode tpl p fs0).1 parserModulePath = some pf) ∧
      (∃ vf, fsRead (generateCode tpl p fs0).1 visitorModulePath = some vf)) ∧
    (∀ e, tpl = Except.error e → (generateCode tpl p fs0).1 = fs0) ∧
    (∀ tf e, tpl = Except.ok tf → (generateCode tpl p fs0).2 = Except.error e →
      fsRead (generateCode tpl p fs0).1 parserModulePath = some tf ∧
      fsRead (generateCode tpl p fs0).1 visitorModulePath =
        fsRead fs0 visitorModulePath) := by
  have hpv : parserModulePath ≠ visitorModulePath := by decide
  cases tpl with
  | error e0 =>
    refine ⟨?_, ?_, ?_⟩
    · intro h
      simp [generateCode] at h
    · intro e _
      rfl
    · intro tf e htf _
      simp at htf
  | ok tf0 =>
    cases hpf : generateParserFile tf0 p with
    | error e1 =>
      refine ⟨?_, ?_, ?_⟩
      · intro h
        simp [generateCode, hpf] at h
      · intro e he
        simp at he
      · intro tf e htf _
        injection htf with htf
        subst htf
        constructor
        · simp [generateCode, hpf]
        · simp only [generateCode, hpf]
          exact fsRead_fsWrite_other fs0 _ _ _ hpv
    | ok pf =>
      refine ⟨?_, ?_, ?_⟩
      · intro _
        constructor
        · refine ⟨pf, ?_⟩
          simp only [generateCode, hpf]
          rw [fsRead_fsWrite_other _ _ _ _ (fun h => hpv h.symm)]
          exact fsRead_fsWrite_same _ _ _
        · refine ⟨generateVisitorFile p, ?_⟩
          simp only [generateCode, hpf]
          exact fsRead_fsWrite_same _ _ _
      · intro e he
        simp at he
      · intro tf e htf hres
        simp [generateCode, hpf] at hres

/-- Witness for C1 (amended): the after-copy failure clause applied to
the broken template run of `c1_counterexample`'s input. -/
theorem c1_atomicity_amended_witness :
    (generateCode (Except.ok badFirstStmtTpl) cParser fsEmpty).2 =
      Except.error (GenError.structuralMismatch
        "first statement is not a variable statement") ∧
    fsRead (generateCode (Except.ok badFirstStmtTpl) cParser fsEmpty).1
      parserModulePath = some badFirstStmtTpl ∧
    fsRead (generateCode (Except.ok badFirstStmtTpl) cParser fsEmpty).1
      visitorModulePath = fsRead fsEmpty visitorModulePath :=
  have hres : (generateCode (Except.ok badFirstStmtTpl) cParser fsEmpty).2 =
      Except.error (GenError.structuralMismatch
        "first statement is not a variable statement") := rfl
  have H := (c1_atomicity_amended (Except.ok badFirstStmtTpl) cParser fsEmpty).2.2
    badFirstStmtTpl
    (GenError.structuralMismatch "first statement is not a variable statement")
    rfl hres
  ⟨hres, H.1, H.2⟩

/-! ## Claim C9 -/

/-- Congruence: `runAntlr` reads only the lexer and parser names of the model. -/
theorem runAntlr_congr (se : SpawnCall → Int) (pkm : Option SpawnPKM)
    (p1 p2 : Parser) (hn : p1.name = p2.name) (hl : p1.lexer.name = p2.lexer.name) :
    runAntlr se p1 pkm = runAntlr se p2 pkm := by
  simp only [runAntlr, hn, hl]

/-- Congruence: `generateVisitor` reads only the parser name of the model. -/
theorem generateVisitorFile_congr (p1 p2 : Parser) (hn : p1.name = p2.name) :
    generateVisitorFile p1 = generateVisitorFile p2 := by
  simp only [generateVisitorFile, hn]

/-- Congruence: `generateParser` reads only the parser name, the lexer name and
the root rule's name. -/
theorem generateParserFile_congr (tf : SourceFileModel) (p1 p2 : Parser)
    (hn : p1.name = p2.name) (hl : p1.lexer.name = p2.lexer.name)
    (hr : p1.rules.head?.map Rule.name = p2.rules.head?.map Rule.name) :
    generateParserFile tf p1 = generateParserFile tf p2 := by
  cases h1 : p1.rules with
  | nil =>
    cases h2 : p2.rules with
    | nil =>
      simp only [generateParserFile, hn, hl]
      rw [h1, h2]
    | cons r2 rs2 =>
      rw [h1, h2] at hr
      simp at hr
  | cons r1 rs1 =>
    cases h2 : p2.rules with
    | nil =>
      rw [h1, h2] at hr
      simp at hr
    | cons r2 rs2 =>
      rw [h1, h2] at hr
      have hr12 : r1.name = r2.name := by simpa using hr
      simp only [generateParserFile, hn, hl]
      rw [h1, h2]
      dsimp only
      rw [hr12]

/-- Congruence: `generateCode` output depends only on the fields the pipeline
reads. -/
theorem generateCode_congr (tpl : Except String SourceFileModel) (p1 p2 : Parser)
    (fs0 : FsState) (hn : p1.name = p2.name) (hl : p1.lexer.name = p2.lexer.name)
    (hr : p1.rules.head?.map Rule.name = p2.rules.head?.map Rule.name) :
    generateCode tpl p1 fs0 = generateCode tpl p2 fs0 := by
  cases tpl with
  | error e => rfl
  | ok tf =>
    simp only [generateCode]
    rw [generateParserFile_congr tf p1 p2 hn hl hr,
      generateVisitorFile_congr p1 p2 hn]

/-- C9: generation is deterministic — the whole pipeline state,
including both generated modules' bytes, is a function of the Rule
Model fields the pipeline reads (parser name, lexer name, root-rule
name); in particular two runs on identical Rule Models from the same
initial state produce byte-identical parser and visitor modules. -/
theorem c9_generation_deterministic (se : SpawnCall → Int)
    (tpl : Except String SourceFileModel) (p1 p2 : Parser)
    (pkm : Option SpawnPKM) (fs0 : FsState)
    (hn : p1.name = p2.name) (hl : p1.lexer.name = p2.lexer.name)
    (hr : p1.rules.head?.map Rule.name = p2.rules.head?.map Rule.name) :
    generate se tpl p1 pkm fs0 = generate se tpl p2 pkm fs0 := by
  have hemp : p1.rules.isEmpty = p2.rules.isEmpty := by
    cases h1 : p1.rules <;> cases h2 : p2.rules <;> rw [h1, h2] at hr <;> simp_all
  simp only [generate, hemp]
  cases he : p2.rules.isEmpty with
  | true => simp
  | false =>
    simp only [Bool.false_eq_true, if_false]
    rw [runAntlr_congr se pkm p1 p2 hn hl,
      generateCode_congr tpl p1 p2 fs0 hn hl hr]

/-- A second Rule Model, structurally different from `cParser` (other
tail rules, other grammar texts) but agreeing on every field the
pipeline reads. -/
def cParserVariant : Parser :=
  { name := "MyParser",
    lexer := { name := "MyLexer", toAntlr := "lexer grammar MyLexer; A: 'a';" },
    rules := [{ name := "root" }],
    toAntlr := "parser grammar MyParser; root: A;" }

/-- Witness for C9: two structurally different Rule Models agreeing on
the read fields give identical pipeline results. -/
theorem c9_generation_deterministic_witness :
    cParser ≠ cParserVariant ∧
    cParser.name = cParserVariant.name ∧
    cParser.lexer.name = cParserVariant.lexer.name ∧
    cParser.rules.head?.map Rule.name = cParserVariant.rules.head?.map Rule.name ∧
    generate (fun _ => 0) (Except.ok goodTpl) cParser (some "npm") fsEmpty =
      generate (fun _ => 0) (Except.ok goodTpl) cParserVariant (some "npm") fsEmpty :=
  ⟨by decide, rfl, rfl, rfl,
    c9_generation_deterministic (fun _ => 0) (Except.ok goodTpl) cParser cParserVariant
      (some "npm") fsEmpty rfl rfl rfl⟩

end Ldtk

